import Mathlib

/-!
Verification of the Excel-driven folder mover.

Strings are modelled as lists of characters (`PyStr`).  The pure string
operations (`strip`, `lower`, `split('-', 1)`, the `001-` legacy-mark
removal) are translated directly from the script; the per-entry scanning
loop becomes a fold over a scan state, with the environment effects
(directory creation, move success) supplied by a deterministic oracle.
-/

abbrev PyStr := List Char

/-- Python whitespace characters recognised by `str.strip()`. -/
def pyIsSpace (c : Char) : Bool :=
  decide (c = ' ') || decide (c = '\t') || decide (c = '\n') ||
  decide (c = '\r') || decide (c = '\x0b') || decide (c = '\x0c')

/-- `str.strip()`: drop whitespace from both ends. -/
def pyStrip (s : PyStr) : PyStr :=
  ((s.dropWhile pyIsSpace).reverse.dropWhile pyIsSpace).reverse

/-- `str.lower()`, character-wise. -/
def pyLower (s : PyStr) : PyStr := s.map Char.toLower

/-- First occurrence split: `splitFirst c s = some (a, b)` when `s = a ++ c :: b`
with `c ∉ a`; `none` when `c` does not occur in `s`. -/
def splitFirst (c : Char) : PyStr → Option (PyStr × PyStr)
  | [] => none
  | x :: xs =>
    if x = c then some ([], xs)
    else
      match splitFirst c xs with
      | none => none
      | some (a, b) => some (x :: a, b)

/-- Python `s.split(d, 1)`: one-element list when the delimiter is absent,
otherwise the two pieces around its first occurrence. -/
def pySplit1 (c : Char) (s : PyStr) : List PyStr :=
  match splitFirst c s with
  | none => [s]
  | some (a, b) => [a, b]

/-- Folder-name parse from the scan loop: require a `-`, call
`split('-', 1)`, keep the result only when it has exactly two parts, and
strip both parts.  Mirrors lines 230-235 of the script. -/
def parseFolder (s : PyStr) : Option (PyStr × PyStr) :=
  if '-' ∈ s then
    match pySplit1 '-' s with
    | [a, b] => some (pyStrip a, pyStrip b)
    | _ => none
  else none

theorem splitFirst_append (c : Char) (a b : PyStr) (h : c ∉ a) :
    splitFirst c (a ++ c :: b) = some (a, b) := by
  induction a with
  | nil => simp [splitFirst]
  | cons x xs ih =>
    have hx : x ≠ c := by
      intro hxc; exact h (by simp [hxc])
    have hxs : c ∉ xs := fun hm => h (List.mem_cons_of_mem _ hm)
    simp [splitFirst, hx, ih hxs]

theorem splitFirst_none_of_not_mem (c : Char) (s : PyStr) (h : c ∉ s) :
    splitFirst c s = none := by
  induction s with
  | nil => rfl
  | cons x xs ih =>
    have hx : x ≠ c := by
      intro hxc; exact h (by simp [hxc])
    have hxs : c ∉ xs := fun hm => h (List.mem_cons_of_mem _ hm)
    simp [splitFirst, hx, ih hxs]

theorem splitFirst_some_of_mem (c : Char) (s : PyStr) (h : c ∈ s) :
    ∃ a b, splitFirst c s = some (a, b) := by
  induction s with
  | nil => cases h
  | cons x xs ih =>
    by_cases hx : x = c
    · exact ⟨[], xs, by simp [splitFirst, hx]⟩
    · have hm : c ∈ xs := by
        cases h with
        | head => exact absurd rfl hx
        | tail _ hm => exact hm
      obtain ⟨a, b, hab⟩ := ih hm
      exact ⟨x :: a, b, by simp [splitFirst, hx, hab]⟩

theorem parseFolder_eq_of_mem (s : PyStr) (h : '-' ∈ s) :
    ∃ a b, splitFirst '-' s = some (a, b) ∧
      parseFolder s = some (pyStrip a, pyStrip b) := by
  obtain ⟨a, b, hab⟩ := splitFirst_some_of_mem '-' s h
  exact ⟨a, b, hab, by simp [parseFolder, h, pySplit1, hab]⟩

theorem parseFolder_none_of_not_mem (s : PyStr) (h : '-' ∉ s) :
    parseFolder s = none := by
  simp [parseFolder, h]

/-- The per-key test of the matching loop: the Excel value, stripped and
lower-cased, equals the lower case of the (already stripped) folder id or
folder name part. -/
def keyMatches (idF nameF k : PyStr) : Bool :=
  decide (pyLower (pyStrip k) = pyLower idF) ||
  decide (pyLower (pyStrip k) = pyLower nameF)

/-- The matching loop over `names_list`: return the first list element
passing `keyMatches`, or `none`.  Mirrors lines 239-249 of the script. -/
def findMatch (idF nameF : PyStr) : List PyStr → Option PyStr
  | [] => none
  | k :: rest => if keyMatches idF nameF k then some k else findMatch idF nameF rest

/-- A top-level entry of the source directory. -/
structure Entry where
  name : PyStr
  isDir : Bool
  deriving DecidableEq, Repr

/-- Deterministic environment oracle for the filesystem effects of one scan:
whether `os.makedirs` on the destination parent succeeds, and whether
`shutil.move` succeeds for a given folder name. -/
structure ScanEnv where
  mkdirOk : Bool
  moveOk : PyStr → Bool

/-- State threaded through the per-entry scan loop: the entries still
present at the source (`kept`), the folder names present at the destination
root (`dest`), whether the destination parent directory exists, and the
three outcome counters. -/
structure ScanState where
  kept : List Entry
  dest : List PyStr
  parentExists : Bool
  moved : Nat
  skipped : Nat
  unmatched : Nat
  deriving DecidableEq, Repr

/-- The move attempt for a matched entry, after the destination parent is
known to exist: skip when the target already exists, otherwise move (on
oracle success) or fail and skip.  Mirrors lines 267-283 of the script. -/
def movePhase (env : ScanEnv) (s : ScanState) (e : Entry) : ScanState :=
  if e.name ∈ s.dest then
    { s with kept := s.kept ++ [e], skipped := s.skipped + 1 }
  else if env.moveOk e.name then
    { s with dest := e.name :: s.dest, moved := s.moved + 1 }
  else
    { s with kept := s.kept ++ [e], skipped := s.skipped + 1 }

/-- One iteration of the scan loop (lines 223-297): files are ignored,
badly formatted names count as skipped, unmatched names count as
unmatched, and matched names go through parent creation and the move
attempt. -/
def scanStep (env : ScanEnv) (names : List PyStr) (s : ScanState) (e : Entry) :
    ScanState :=
  if e.isDir then
    match parseFolder e.name with
    | none => { s with kept := s.kept ++ [e], skipped := s.skipped + 1 }
    | some (idF, nameF) =>
      match findMatch idF nameF names with
      | none => { s with kept := s.kept ++ [e], unmatched := s.unmatched + 1 }
      | some _ =>
        if s.parentExists then movePhase env s e
        else if env.mkdirOk then movePhase env { s with parentExists := true } e
        else { s with kept := s.kept ++ [e], skipped := s.skipped + 1 }
  else { s with kept := s.kept ++ [e] }

/-- The whole scan loop of one task over a snapshot listing of the source
directory. -/
def scanTask (env : ScanEnv) (names : List PyStr) (entries : List Entry)
    (dest : List PyStr) (parent : Bool) : ScanState :=
  entries.foldl (scanStep env names) ⟨[], dest, parent, 0, 0, 0⟩

/-- Test of the `001-` legacy-mark removal (line 198): the stripped,
lower-cased key starts with the literal `001-`. -/
def hasLegacyMark (s : PyStr) : Bool :=
  List.isPrefixOf ['0', '0', '1', '-'] (pyLower (pyStrip s))

/-- The legacy-mark removal loop over `names_list` (lines 193-207): an
element whose stripped lower-cased form starts with `001-` is replaced by
its stripped form with the first four characters dropped; every other
element is appended unchanged. -/
def processNames (l : List PyStr) : List PyStr :=
  l.map fun n => if hasLegacyMark n then (pyStrip n).drop 4 else n

theorem findMatch_none_iff (idF nameF : PyStr) (names : List PyStr) :
    findMatch idF nameF names = none ↔
      ∀ k ∈ names, keyMatches idF nameF k = false := by
  induction names with
  | nil => simp [findMatch]
  | cons k rest ih =>
    by_cases hk : keyMatches idF nameF k = true
    · simp [findMatch, hk]
    · have hkf : keyMatches idF nameF k = false := by
        simpa using hk
      simp [findMatch, hkf, ih]

theorem findMatch_some_iff (idF nameF v : PyStr) (names : List PyStr) :
    findMatch idF nameF names = some v ↔
      ∃ pre post, names = pre ++ v :: post ∧ keyMatches idF nameF v = true ∧
        ∀ k ∈ pre, keyMatches idF nameF k = false := by
  induction names with
  | nil => simp [findMatch]
  | cons k rest ih =>
    by_cases hk : keyMatches idF nameF k = true
    · rw [show findMatch idF nameF (k :: rest) = some k from by
        simp [findMatch, hk]]
      constructor
      · intro hv
        obtain rfl : k = v := by injection hv
        exact ⟨[], rest, rfl, hk, by simp⟩
      · rintro ⟨pre, post, heq, hkm, hpre⟩
        cases pre with
        | nil =>
          obtain ⟨rfl, rfl⟩ : k = v ∧ rest = post := by
            constructor <;> injection heq
          rfl
        | cons p ps =>
          injection heq with h1 h2
          subst h1
          have : keyMatches idF nameF k = false := hpre k (by simp)
          rw [this] at hk
          cases hk
    · have hkf : keyMatches idF nameF k = false := by
        simpa using hk
      rw [show findMatch idF nameF (k :: rest) = findMatch idF nameF rest from by
        simp [findMatch, hkf]]
      rw [ih]
      constructor
      · rintro ⟨pre, post, heq, hv, hpre⟩
        refine ⟨k :: pre, post, by simp [heq], hv, ?_⟩
        intro x hx
        rcases List.mem_cons.mp hx with rfl | hx
        · exact hkf
        · exact hpre x hx
      · rintro ⟨pre, post, heq, hv, hpre⟩
        cases pre with
        | nil =>
          obtain ⟨rfl, -⟩ : k = v ∧ rest = post := by
            constructor <;> injection heq
          rw [hv] at hkf
          cases hkf
        | cons p ps =>
          injection heq with h1 h2
          subst h1
          exact ⟨ps, post, by simpa using h2, hv, fun x hx => hpre x (by simp [hx])⟩

/-- Environment oracle in which directory creation and every move succeed. -/
def envAll : ScanEnv := ⟨true, fun _ => true⟩

/-- Initial scan state with empty destination and existing parent. -/
def s0 : ScanState := ⟨[], [], true, 0, 0, 0⟩

theorem processNames_getD (l : List PyStr) (i : Nat) :
    (processNames l).getD i [] =
      if hasLegacyMark (l.getD i []) then (pyStrip (l.getD i [])).drop 4
      else l.getD i [] := by
  induction l generalizing i with
  | nil => simp [processNames, List.getD]; decide
  | cons x xs ih =>
    cases i with
    | zero => simp [processNames, List.getD]
    | succ n => simpa [processNames, List.getD] using ih n

/-- C1: for a format-valid entry with parts (id, label), the matching loop
records the first candidate key (in list order) whose stripped, lower-cased
form equals the lower case of the trimmed id or of the trimmed label; with
no qualifying key the entry counts as unmatched, not skipped; with
candidates `["42", "john"]` and directory `"42-john"` the match is
`"42"`. -/
theorem C1_first_match (names : List PyStr) (idF nameF : PyStr) :
    (∀ k, keyMatches idF nameF k = true ↔
        pyLower (pyStrip k) = pyLower idF ∨ pyLower (pyStrip k) = pyLower nameF)
    ∧ (∀ v, findMatch idF nameF names = some v ↔
        ∃ pre post, names = pre ++ v :: post ∧ keyMatches idF nameF v = true ∧
          ∀ k ∈ pre, keyMatches idF nameF k = false)
    ∧ (findMatch idF nameF names = none ↔
        ∀ k ∈ names, keyMatches idF nameF k = false)
    ∧ (∀ (env : ScanEnv) (s : ScanState) (e : Entry), e.isDir = true →
        parseFolder e.name = some (idF, nameF) →
        findMatch idF nameF names = none →
        (scanStep env names s e).unmatched = s.unmatched + 1 ∧
        (scanStep env names s e).skipped = s.skipped ∧
        (scanStep env names s e).moved = s.moved)
    ∧ findMatch ['4', '2'] ['j', 'o', 'h', 'n'] [['4', '2'], ['j', 'o', 'h', 'n']] =
        some ['4', '2'] := by
  refine ⟨?_, fun v => findMatch_some_iff idF nameF v names,
    findMatch_none_iff idF nameF names, ?_, by decide⟩
  · intro k
    simp [keyMatches]
  · intro env s e hdir hparse hnone
    simp [scanStep, hdir, hparse, hnone]

/-- Witness for C1 at a concrete unmatched entry. -/
theorem C1_first_match_witness :
    (scanStep envAll [['z']] s0 ⟨['a', '-', 'b'], true⟩).unmatched =
      s0.unmatched + 1 :=
  ((C1_first_match [['z']] ['a'] ['b']).2.2.2.1 envAll s0 ⟨['a', '-', 'b'], true⟩
    rfl (by decide) (by decide)).1

/-- C2 counterexample: the directory name `"A-"` contains `-` and its
label part is empty after trimming, so the claim classifies it
skipped-format; the code instead parses it, matches it against candidate
`"a"` and moves it (moved = 1, skipped = 0). -/
theorem C2_counterexample :
    ('-' ∈ (['A', '-'] : PyStr)) ∧
    parseFolder ['A', '-'] = some (['A'], []) ∧
    (scanTask envAll [['a']] [⟨['A', '-'], true⟩] [] true).moved = 1 ∧
    (scanTask envAll [['a']] [⟨['A', '-'], true⟩] [] true).skipped = 0 := by
  decide

/-- C2 amended: a directory entry whose name contains no `-` is classified
skipped-format (only the skipped counter moves, the entry stays at the
source, nothing else changes); when the name contains `-`, the
`split('-', 1)` call always yields exactly two parts and the entry always
proceeds to matching with both parts trimmed, even when a part is empty
after trimming. -/
theorem C2_amended (env : ScanEnv) (names : List PyStr) (s : ScanState)
    (e : Entry) (hdir : e.isDir = true) :
    ('-' ∉ e.name →
      (scanStep env names s e).skipped = s.skipped + 1 ∧
      (scanStep env names s e).moved = s.moved ∧
      (scanStep env names s e).unmatched = s.unmatched ∧
      (scanStep env names s e).kept = s.kept ++ [e] ∧
      (scanStep env names s e).dest = s.dest)
    ∧ ('-' ∈ e.name →
      ∃ a b, splitFirst '-' e.name = some (a, b) ∧
        parseFolder e.name = some (pyStrip a, pyStrip b)) := by
  constructor
  · intro hnm
    simp [scanStep, hdir, parseFolder_none_of_not_mem e.name hnm]
  · intro hm
    exact parseFolder_eq_of_mem e.name hm

/-- Witness for C2 amended: a delimiter-free name is skipped, a name with
a trailing delimiter still parses. -/
theorem C2_amended_witness :
    (scanStep envAll [] s0 ⟨['x'], true⟩).skipped = s0.skipped + 1 ∧
    (∃ a b, splitFirst '-' ['A', '-'] = some (a, b) ∧
      parseFolder ['A', '-'] = some (pyStrip a, pyStrip b)) :=
  ⟨((C2_amended envAll [] s0 ⟨['x'], true⟩ rfl).1 (by decide)).1,
   (C2_amended envAll [] s0 ⟨['A', '-'], true⟩ rfl).2 (by decide)⟩

/-- C3 counterexample: the key `" x "` has no `001-` mark; the claim says
the normalized element is the whitespace-stripped `"x"`, but the code
returns the element entirely unchanged, whitespace included. -/
theorem C3_counterexample :
    processNames [[' ', 'x', ' ']] = [[' ', 'x', ' ']] ∧
    pyStrip [' ', 'x', ' '] = ['x'] ∧
    ([' ', 'x', ' '] : PyStr) ≠ ['x'] := by
  decide

/-- C3 amended: the normalizer returns a list of the same length and order
(no dedup, no reordering) in which an element whose trimmed lower-cased
form begins with the literal `001-` is replaced by its trimmed form with
exactly that four-character prefix removed, and every other element —
including `"001abc"` and keys with surrounding whitespace — is returned
entirely unchanged (no whitespace stripping is applied to it). -/
theorem C3_amended (l : List PyStr) :
    (processNames l).length = l.length
    ∧ (∀ i, (processNames l).getD i [] =
        if hasLegacyMark (l.getD i []) then (pyStrip (l.getD i [])).drop 4
        else l.getD i [])
    ∧ processNames [['0', '0', '1', 'a', 'b', 'c']] =
        [['0', '0', '1', 'a', 'b', 'c']]
    ∧ processNames [['0', '0', '1', '-', '1', '2', '3']] = [['1', '2', '3']] := by
  refine ⟨by simp [processNames], processNames_getD l, by decide, by decide⟩

/-- C7: the folder-name parse splits on the first delimiter occurrence
only: a name `a ++ "-" ++ b` with `-` not occurring in `a` parses to the
trimmed pair `(a, b)`, so labels keep any further delimiters; in
particular `"A-B-C"` parses to id `"A"`, label `"B-C"`. -/
theorem C7_first_split (a b : PyStr) (h : '-' ∉ a) :
    splitFirst '-' (a ++ '-' :: b) = some (a, b) ∧
    parseFolder (a ++ '-' :: b) = some (pyStrip a, pyStrip b) := by
  have h1 := splitFirst_append '-' a b h
  refine ⟨h1, ?_⟩
  have hm : '-' ∈ a ++ '-' :: b := by simp
  simp [parseFolder, hm, pySplit1, h1]

/-- Witness for C7 at `"A-B-C"`. -/
theorem C7_first_split_witness :
    parseFolder ['A', '-', 'B', '-', 'C'] = some (['A'], ['B', '-', 'C']) := by
  have h := (C7_first_split ['A'] ['B', '-', 'C'] (by decide)).2
  simpa using h

theorem movePhase_eq_mem (env : ScanEnv) (s : ScanState) (e : Entry)
    (h : e.name ∈ s.dest) :
    movePhase env s e =
      { s with kept := s.kept ++ [e], skipped := s.skipped + 1 } := by
  simp [movePhase, h]

theorem movePhase_eq_move (env : ScanEnv) (s : ScanState) (e : Entry)
    (h : e.name ∉ s.dest) (hm : env.moveOk e.name = true) :
    movePhase env s e =
      { s with dest := e.name :: s.dest, moved := s.moved + 1 } := by
  simp [movePhase, h, hm]

theorem movePhase_eq_fail (env : ScanEnv) (s : ScanState) (e : Entry)
    (h : e.name ∉ s.dest) (hm : env.moveOk e.name = false) :
    movePhase env s e =
      { s with kept := s.kept ++ [e], skipped := s.skipped + 1 } := by
  simp [movePhase, h, hm]

theorem scanStep_eq_notDir (env : ScanEnv) (names : List PyStr) (s : ScanState)
    (e : Entry) (h : e.isDir = false) :
    scanStep env names s e = { s with kept := s.kept ++ [e] } := by
  simp [scanStep, h]

theorem scanStep_eq_badFormat (env : ScanEnv) (names : List PyStr)
    (s : ScanState) (e : Entry) (h : e.isDir = true)
    (hp : parseFolder e.name = none) :
    scanStep env names s e =
      { s with kept := s.kept ++ [e], skipped := s.skipped + 1 } := by
  simp [scanStep, h, hp]

theorem scanStep_eq_unmatched (env : ScanEnv) (names : List PyStr)
    (s : ScanState) (e : Entry) (idF nameF : PyStr) (h : e.isDir = true)
    (hp : parseFolder e.name = some (idF, nameF))
    (hm : findMatch idF nameF names = none) :
    scanStep env names s e =
      { s with kept := s.kept ++ [e], unmatched := s.unmatched + 1 } := by
  simp [scanStep, h, hp, hm]

theorem scanStep_eq_matched_parent (env : ScanEnv) (names : List PyStr)
    (s : ScanState) (e : Entry) (idF nameF v : PyStr) (h : e.isDir = true)
    (hp : parseFolder e.name = some (idF, nameF))
    (hm : findMatch idF nameF names = some v) (hpe : s.parentExists = true) :
    scanStep env names s e = movePhase env s e := by
  simp [scanStep, h, hp, hm, hpe]

theorem scanStep_eq_matched_mkdir (env : ScanEnv) (names : List PyStr)
    (s : ScanState) (e : Entry) (idF nameF v : PyStr) (h : e.isDir = true)
    (hp : parseFolder e.name = some (idF, nameF))
    (hm : findMatch idF nameF names = some v) (hpe : s.parentExists = false)
    (hmk : env.mkdirOk = true) :
    scanStep env names s e = movePhase env { s with parentExists := true } e := by
  simp [scanStep, h, hp, hm, hpe, hmk]

theorem scanStep_eq_matched_mkdirFail (env : ScanEnv) (names : List PyStr)
    (s : ScanState) (e : Entry) (idF nameF v : PyStr) (h : e.isDir = true)
    (hp : parseFolder e.name = some (idF, nameF))
    (hm : findMatch idF nameF names = some v) (hpe : s.parentExists = false)
    (hmk : env.mkdirOk = false) :
    scanStep env names s e =
      { s with kept := s.kept ++ [e], skipped := s.skipped + 1 } := by
  simp [scanStep, h, hp, hm, hpe, hmk]

theorem movePhase_dest_mono (env : ScanEnv) (s : ScanState) (e : Entry)
    (x : PyStr) (hx : x ∈ s.dest) : x ∈ (movePhase env s e).dest := by
  by_cases hmem : e.name ∈ s.dest
  · rw [movePhase_eq_mem env s e hmem]; exact hx
  · cases hmv : env.moveOk e.name with
    | true => rw [movePhase_eq_move env s e hmem hmv]; exact List.mem_cons_of_mem _ hx
    | false => rw [movePhase_eq_fail env s e hmem hmv]; exact hx

theorem movePhase_parent (env : ScanEnv) (s : ScanState) (e : Entry) :
    (movePhase env s e).parentExists = s.parentExists := by
  by_cases hmem : e.name ∈ s.dest
  · rw [movePhase_eq_mem env s e hmem]
  · cases hmv : env.moveOk e.name with
    | true => rw [movePhase_eq_move env s e hmem hmv]
    | false => rw [movePhase_eq_fail env s e hmem hmv]

theorem movePhase_counts (env : ScanEnv) (s : ScanState) (e : Entry) :
    (movePhase env s e).moved + (movePhase env s e).skipped +
        (movePhase env s e).unmatched =
      s.moved + s.skipped + s.unmatched + 1 := by
  by_cases hmem : e.name ∈ s.dest
  · rw [movePhase_eq_mem env s e hmem]; dsimp only; omega
  · cases hmv : env.moveOk e.name with
    | true => rw [movePhase_eq_move env s e hmem hmv]; dsimp only; omega
    | false => rw [movePhase_eq_fail env s e hmem hmv]; dsimp only; omega

theorem scanStep_dest_mono (env : ScanEnv) (names : List PyStr) (s : ScanState)
    (e : Entry) (x : PyStr) (hx : x ∈ s.dest) :
    x ∈ (scanStep env names s e).dest := by
  cases hdir : e.isDir with
  | false => rw [scanStep_eq_notDir env names s e hdir]; exact hx
  | true =>
    cases hp : parseFolder e.name with
    | none => rw [scanStep_eq_badFormat env names s e hdir hp]; exact hx
    | some pr =>
      obtain ⟨idF, nameF⟩ := pr
      cases hm : findMatch idF nameF names with
      | none => rw [scanStep_eq_unmatched env names s e idF nameF hdir hp hm]; exact hx
      | some v =>
        cases hpe : s.parentExists with
        | true =>
          rw [scanStep_eq_matched_parent env names s e idF nameF v hdir hp hm hpe]
          exact movePhase_dest_mono env s e x hx
        | false =>
          cases hmk : env.mkdirOk with
          | true =>
            rw [scanStep_eq_matched_mkdir env names s e idF nameF v hdir hp hm hpe hmk]
            exact movePhase_dest_mono env { s with parentExists := true } e x hx
          | false =>
            rw [scanStep_eq_matched_mkdirFail env names s e idF nameF v hdir hp hm hpe hmk]
            exact hx

theorem scanStep_parent_of_mkdirFalse (env : ScanEnv) (names : List PyStr)
    (s : ScanState) (e : Entry) (hmk : env.mkdirOk = false) :
    (scanStep env names s e).parentExists = s.parentExists := by
  cases hdir : e.isDir with
  | false => rw [scanStep_eq_notDir env names s e hdir]
  | true =>
    cases hp : parseFolder e.name with
    | none => rw [scanStep_eq_badFormat env names s e hdir hp]
    | some pr =>
      obtain ⟨idF, nameF⟩ := pr
      cases hm : findMatch idF nameF names with
      | none => rw [scanStep_eq_unmatched env names s e idF nameF hdir hp hm]
      | some v =>
        cases hpe : s.parentExists with
        | true =>
          rw [scanStep_eq_matched_parent env names s e idF nameF v hdir hp hm hpe]
          rw [movePhase_parent env s e]
          exact hpe
        | false =>
          rw [scanStep_eq_matched_mkdirFail env names s e idF nameF v hdir hp hm hpe hmk]
          exact hpe

theorem scanStep_counts (env : ScanEnv) (names : List PyStr) (s : ScanState)
    (e : Entry) :
    (scanStep env names s e).moved + (scanStep env names s e).skipped +
        (scanStep env names s e).unmatched =
      s.moved + s.skipped + s.unmatched + (if e.isDir then 1 else 0) := by
  cases hdir : e.isDir with
  | false => rw [scanStep_eq_notDir env names s e hdir]; simp
  | true =>
    rw [if_pos rfl]
    cases hp : parseFolder e.name with
    | none =>
      rw [scanStep_eq_badFormat env names s e hdir hp]; dsimp only; omega
    | some pr =>
      obtain ⟨idF, nameF⟩ := pr
      cases hm : findMatch idF nameF names with
      | none =>
        rw [scanStep_eq_unmatched env names s e idF nameF hdir hp hm]
        dsimp only; omega
      | some v =>
        cases hpe : s.parentExists with
        | true =>
          rw [scanStep_eq_matched_parent env names s e idF nameF v hdir hp hm hpe]
          exact movePhase_counts env s e
        | false =>
          cases hmk : env.mkdirOk with
          | true =>
            rw [scanStep_eq_matched_mkdir env names s e idF nameF v hdir hp hm hpe hmk]
            exact movePhase_counts env { s with parentExists := true } e
          | false =>
            rw [scanStep_eq_matched_mkdirFail env names s e idF nameF v hdir hp hm hpe hmk]
            dsimp only; omega

/-- C5: a matched directory entry whose target name already exists at the
destination is skipped: the skipped counter increments, nothing else
changes — the entry stays at the source, the destination listing, the
parent flag and the other counters are untouched, and processing
continues (the step is total). -/
theorem C5_dest_exists_skip (env : ScanEnv) (names : List PyStr)
    (s : ScanState) (e : Entry) (idF nameF : PyStr)
    (hdir : e.isDir = true)
    (hparse : parseFolder e.name = some (idF, nameF))
    (hmatch : findMatch idF nameF names ≠ none)
    (hparent : s.parentExists = true)
    (hex : e.name ∈ s.dest) :
    (scanStep env names s e).skipped = s.skipped + 1 ∧
    (scanStep env names s e).moved = s.moved ∧
    (scanStep env names s e).unmatched = s.unmatched ∧
    (scanStep env names s e).kept = s.kept ++ [e] ∧
    (scanStep env names s e).dest = s.dest ∧
    (scanStep env names s e).parentExists = s.parentExists := by
  obtain ⟨v, hv⟩ := Option.ne_none_iff_exists'.mp hmatch
  rw [scanStep_eq_matched_parent env names s e idF nameF v hdir hparse hv hparent]
  rw [movePhase_eq_mem env s e hex]
  exact ⟨rfl, rfl, rfl, rfl, rfl, rfl⟩

/-- Sample state for C5: the folder `UA01-Zhang` already present at the
destination. -/
def zhangName : PyStr := ['U', 'A', '0', '1', '-', 'Z', 'h', 'a', 'n', 'g']

/-- Destination state that already contains `UA01-Zhang`. -/
def s5 : ScanState := ⟨[], [zhangName], true, 0, 0, 0⟩

/-- Witness for C5 at directory `UA01-Zhang` with candidate `ua01`. -/
theorem C5_dest_exists_skip_witness :
    (scanStep envAll [['u', 'a', '0', '1']] s5 ⟨zhangName, true⟩).skipped =
        s5.skipped + 1 ∧
    (scanStep envAll [['u', 'a', '0', '1']] s5 ⟨zhangName, true⟩).moved =
        s5.moved ∧
    (scanStep envAll [['u', 'a', '0', '1']] s5 ⟨zhangName, true⟩).unmatched =
        s5.unmatched ∧
    (scanStep envAll [['u', 'a', '0', '1']] s5 ⟨zhangName, true⟩).kept =
        s5.kept ++ [⟨zhangName, true⟩] ∧
    (scanStep envAll [['u', 'a', '0', '1']] s5 ⟨zhangName, true⟩).dest =
        s5.dest ∧
    (scanStep envAll [['u', 'a', '0', '1']] s5 ⟨zhangName, true⟩).parentExists =
        s5.parentExists :=
  C5_dest_exists_skip envAll [['u', 'a', '0', '1']] s5 ⟨zhangName, true⟩
    (['U', 'A', '0', '1']) (['Z', 'h', 'a', 'n', 'g']) rfl (by decide)
    (by decide) rfl (by decide)

theorem scanFold_counts (env : ScanEnv) (names : List PyStr) :
    ∀ (entries : List Entry) (s : ScanState),
      (entries.foldl (scanStep env names) s).moved +
          (entries.foldl (scanStep env names) s).skipped +
          (entries.foldl (scanStep env names) s).unmatched =
        s.moved + s.skipped + s.unmatched +
          (entries.countP fun e => e.isDir) := by
  intro entries
  induction entries with
  | nil => intro s; simp
  | cons a rest ih =>
    intro s
    rw [List.foldl_cons, List.countP_cons]
    have h1 := ih (scanStep env names s a)
    have h2 := scanStep_counts env names s a
    by_cases hdir : a.isDir = true
    · simp [hdir] at h2 ⊢
      omega
    · have hdf : a.isDir = false := by simpa using hdir
      simp [hdf] at h2 ⊢
      omega

/-- Conditions under which an entry can never be moved by a scan step:
not a directory, bad format, no candidate match, target already at the
destination, deterministic move failure, or a missing destination parent
that cannot be created. -/
def noMoveCond (env : ScanEnv) (names : List PyStr) (D : List PyStr)
    (pe : Bool) (e : Entry) : Prop :=
  e.isDir = false ∨ parseFolder e.name = none ∨
  (∃ i n, parseFolder e.name = some (i, n) ∧ findMatch i n names = none) ∨
  e.name ∈ D ∨ env.moveOk e.name = false ∨
  (env.mkdirOk = false ∧ pe = false)

theorem scanStep_skip_of_cond (env : ScanEnv) (names : List PyStr)
    (t : ScanState) (e : Entry)
    (h : noMoveCond env names t.dest t.parentExists e) :
    (scanStep env names t e).moved = t.moved ∧
    (scanStep env names t e).dest = t.dest := by
  cases hdir : e.isDir with
  | false => rw [scanStep_eq_notDir env names t e hdir]; exact ⟨rfl, rfl⟩
  | true =>
    cases hp : parseFolder e.name with
    | none => rw [scanStep_eq_badFormat env names t e hdir hp]; exact ⟨rfl, rfl⟩
    | some pr =>
      obtain ⟨i, n⟩ := pr
      cases hm : findMatch i n names with
      | none =>
        rw [scanStep_eq_unmatched env names t e i n hdir hp hm]; exact ⟨rfl, rfl⟩
      | some v =>
        have h' : e.name ∈ t.dest ∨ env.moveOk e.name = false ∨
            (env.mkdirOk = false ∧ t.parentExists = false) := by
          rcases h with h | h | ⟨i', n', hp', hm'⟩ | h | h | h
          · rw [hdir] at h; cases h
          · rw [hp] at h; cases h
          · rw [hp] at hp'
            injection hp' with h12
            obtain ⟨rfl, rfl⟩ := Prod.mk.inj h12
            rw [hm] at hm'; cases hm'
          · exact Or.inl h
          · exact Or.inr (Or.inl h)
          · exact Or.inr (Or.inr h)
        cases hpe : t.parentExists with
        | true =>
          rw [scanStep_eq_matched_parent env names t e i n v hdir hp hm hpe]
          rcases h' with hmem | hmv | ⟨hmk, hpf⟩
          · rw [movePhase_eq_mem env t e hmem]; exact ⟨rfl, rfl⟩
          · by_cases hmem : e.name ∈ t.dest
            · rw [movePhase_eq_mem env t e hmem]; exact ⟨rfl, rfl⟩
            · rw [movePhase_eq_fail env t e hmem hmv]; exact ⟨rfl, rfl⟩
          · rw [hpe] at hpf; cases hpf
        | false =>
          cases hmk2 : env.mkdirOk with
          | false =>
            rw [scanStep_eq_matched_mkdirFail env names t e i n v hdir hp hm hpe hmk2]
            exact ⟨rfl, rfl⟩
          | true =>
            rw [scanStep_eq_matched_mkdir env names t e i n v hdir hp hm hpe hmk2]
            rcases h' with hmem | hmv | ⟨hmk, hpf⟩
            · rw [movePhase_eq_mem env { t with parentExists := true } e hmem]
              exact ⟨rfl, rfl⟩
            · by_cases hmem : e.name ∈ t.dest
              · rw [movePhase_eq_mem env { t with parentExists := true } e hmem]
                exact ⟨rfl, rfl⟩
              · rw [movePhase_eq_fail env { t with parentExists := true } e hmem hmv]
                exact ⟨rfl, rfl⟩
            · rw [hmk2] at hmk; cases hmk

theorem noMoveCond_transfer (env : ScanEnv) (names : List PyStr)
    (D D' : List PyStr) (pe pe' : Bool) (e : Entry)
    (hD : ∀ x ∈ D, x ∈ D') (hpe : env.mkdirOk = false → pe' = pe)
    (h : noMoveCond env names D pe e) : noMoveCond env names D' pe' e := by
  rcases h with h | h | h | h | h | ⟨h1, h2⟩
  · exact Or.inl h
  · exact Or.inr (Or.inl h)
  · exact Or.inr (Or.inr (Or.inl h))
  · exact Or.inr (Or.inr (Or.inr (Or.inl (hD _ h))))
  · exact Or.inr (Or.inr (Or.inr (Or.inr (Or.inl h))))
  · exact Or.inr (Or.inr (Or.inr (Or.inr (Or.inr ⟨h1, by rw [hpe h1, h2]⟩))))

theorem scanStep_kept_inv (env : ScanEnv) (names : List PyStr) (t : ScanState)
    (e : Entry)
    (hold : ∀ x ∈ t.kept, noMoveCond env names t.dest t.parentExists x) :
    ∀ x ∈ (scanStep env names t e).kept,
      noMoveCond env names (scanStep env names t e).dest
        (scanStep env names t e).parentExists x := by
  have htrans : ∀ x ∈ t.kept,
      noMoveCond env names (scanStep env names t e).dest
        (scanStep env names t e).parentExists x := by
    intro x hx
    refine noMoveCond_transfer env names t.dest _ t.parentExists _ x
      (fun y hy => scanStep_dest_mono env names t e y hy)
      (fun hmk => scanStep_parent_of_mkdirFalse env names t e hmk)
      (hold x hx)
  intro x hx
  cases hdir : e.isDir with
  | false =>
    rw [scanStep_eq_notDir env names t e hdir] at hx
    rcases List.mem_append.mp hx with hx | hx
    · exact htrans x hx
    · obtain rfl : x = e := by simpa using hx
      exact Or.inl hdir
  | true =>
    cases hp : parseFolder e.name with
    | none =>
      rw [scanStep_eq_badFormat env names t e hdir hp] at hx
      rcases List.mem_append.mp hx with hx | hx
      · exact htrans x hx
      · obtain rfl : x = e := by simpa using hx
        exact Or.inr (Or.inl hp)
    | some pr =>
      obtain ⟨i, n⟩ := pr
      cases hm : findMatch i n names with
      | none =>
        rw [scanStep_eq_unmatched env names t e i n hdir hp hm] at hx
        rcases List.mem_append.mp hx with hx | hx
        · exact htrans x hx
        · obtain rfl : x = e := by simpa using hx
          exact Or.inr (Or.inr (Or.inl ⟨i, n, hp, hm⟩))
      | some v =>
        cases hpe : t.parentExists with
        | true =>
          have heq := scanStep_eq_matched_parent env names t e i n v hdir hp hm hpe
          rw [heq] at hx
          by_cases hmem : e.name ∈ t.dest
          · rw [movePhase_eq_mem env t e hmem] at hx
            rcases List.mem_append.mp hx with hx | hx
            · exact htrans x hx
            · obtain rfl : x = e := by simpa using hx
              refine Or.inr (Or.inr (Or.inr (Or.inl ?_)))
              rw [heq, movePhase_eq_mem env t x hmem]
              exact hmem
          · cases hmv : env.moveOk e.name with
            | true =>
              rw [movePhase_eq_move env t e hmem hmv] at hx
              exact htrans x hx
            | false =>
              rw [movePhase_eq_fail env t e hmem hmv] at hx
              rcases List.mem_append.mp hx with hx | hx
              · exact htrans x hx
              · obtain rfl : x = e := by simpa using hx
                exact Or.inr (Or.inr (Or.inr (Or.inr (Or.inl hmv))))
        | false =>
          cases hmk : env.mkdirOk with
          | true =>
            have heq := scanStep_eq_matched_mkdir env names t e i n v hdir hp hm hpe hmk
            rw [heq] at hx
            by_cases hmem : e.name ∈ t.dest
            · rw [movePhase_eq_mem env { t with parentExists := true } e hmem] at hx
              rcases List.mem_append.mp hx with hx | hx
              · exact htrans x hx
              · obtain rfl : x = e := by simpa using hx
                refine Or.inr (Or.inr (Or.inr (Or.inl ?_)))
                rw [heq, movePhase_eq_mem env { t with parentExists := true } x hmem]
                exact hmem
            · cases hmv : env.moveOk e.name with
              | true =>
                rw [movePhase_eq_move env { t with parentExists := true } e hmem hmv] at hx
                exact htrans x hx
              | false =>
                rw [movePhase_eq_fail env { t with parentExists := true } e hmem hmv] at hx
                rcases List.mem_append.mp hx with hx | hx
                · exact htrans x hx
                · obtain rfl : x = e := by simpa using hx
                  exact Or.inr (Or.inr (Or.inr (Or.inr (Or.inl hmv))))
          | false =>
            have heq := scanStep_eq_matched_mkdirFail env names t e i n v hdir hp hm hpe hmk
            rw [heq] at hx
            rcases List.mem_append.mp hx with hx | hx
            · exact htrans x hx
            · obtain rfl : x = e := by simpa using hx
              refine Or.inr (Or.inr (Or.inr (Or.inr (Or.inr ⟨hmk, ?_⟩))))
              rw [heq]
              exact hpe

theorem scanFold_kept_cond (env : ScanEnv) (names : List PyStr) :
    ∀ (entries : List Entry) (s : ScanState),
      (∀ x ∈ s.kept, noMoveCond env names s.dest s.parentExists x) →
      ∀ x ∈ (entries.foldl (scanStep env names) s).kept,
        noMoveCond env names (entries.foldl (scanStep env names) s).dest
          (entries.foldl (scanStep env names) s).parentExists x := by
  intro entries
  induction entries with
  | nil => intro s h; exact h
  | cons a rest ih =>
    intro s h
    rw [List.foldl_cons]
    exact ih (scanStep env names s a) (scanStep_kept_inv env names s a h)

theorem scanFold_no_moves (env : ScanEnv) (names : List PyStr) :
    ∀ (entries : List Entry) (s : ScanState),
      (∀ x ∈ entries, noMoveCond env names s.dest s.parentExists x) →
      (entries.foldl (scanStep env names) s).moved = s.moved := by
  intro entries
  induction entries with
  | nil => intro s _; rfl
  | cons a rest ih =>
    intro s h
    rw [List.foldl_cons]
    have hskip := scanStep_skip_of_cond env names s a (h a (by simp))
    have hrest : ∀ x ∈ rest,
        noMoveCond env names (scanStep env names s a).dest
          (scanStep env names s a).parentExists x := by
      intro x hx
      refine noMoveCond_transfer env names s.dest _ s.parentExists _ x
        (fun y hy => scanStep_dest_mono env names s a y hy)
        (fun hmk => scanStep_parent_of_mkdirFalse env names s a hmk)
        (h x (by simp [hx]))
    rw [ih (scanStep env names s a) hrest, hskip.1]

/-- C4: the relocation pass is idempotent.  Running the scan a second time
on the state produced by a first run — the entries still at the source,
the grown destination listing, the resulting parent flag — performs zero
additional moves under the same deterministic environment: every
previously moved entry left the source, and every kept entry skips again
for the same reason it was kept (bad format, no match, target present,
or deterministic mkdir/move failure).  The second run is a total
function, so it raises no error, and it iterates exactly over the
remaining un-moved entries. -/
theorem C4_idempotent (env : ScanEnv) (names : List PyStr)
    (entries : List Entry) (dest : List PyStr) (parent : Bool) :
    (scanTask env names (scanTask env names entries dest parent).kept
      (scanTask env names entries dest parent).dest
      (scanTask env names entries dest parent).parentExists).moved = 0 := by
  have hkept : ∀ x ∈ (scanTask env names entries dest parent).kept,
      noMoveCond env names (scanTask env names entries dest parent).dest
        (scanTask env names entries dest parent).parentExists x := by
    have h := scanFold_kept_cond env names entries ⟨[], dest, parent, 0, 0, 0⟩
      (by intro x hx; cases hx)
    exact h
  exact scanFold_no_moves env names (scanTask env names entries dest parent).kept
    ⟨[], (scanTask env names entries dest parent).dest,
      (scanTask env names entries dest parent).parentExists, 0, 0, 0⟩ hkept

/-- A column selector as the script's configuration allows it: a 0-based
integer index or a textual column name. -/
inductive Col where
  | byIndex (i : Int)
  | byName (s : PyStr)
  deriving DecidableEq, Repr

/-- Digits-only value of a string, `none` when empty or non-numeric. -/
def digitsVal (ds : PyStr) : Option Nat :=
  if ds = [] then none
  else
    ds.foldl
      (fun acc c =>
        match acc with
        | none => none
        | some n => if c.isDigit then some (n * 10 + (c.toNat - '0'.toNat)) else none)
      (some 0)

/-- Python `int(x)` on a string: surrounding whitespace allowed, optional
sign, decimal digits; `none` models the `ValueError`. -/
def pyParseInt (s : PyStr) : Option Int :=
  match pyStrip s with
  | '-' :: rest => (digitsVal rest).map fun n => -(n : Int)
  | '+' :: rest => (digitsVal rest).map fun n => (n : Int)
  | t => (digitsVal t).map fun n => (n : Int)

/-- Python `int(x)` on a selector, as used by the `usecols` try/except. -/
def pyIntOfCol : Col → Option Int
  | Col.byIndex i => some i
  | Col.byName s => pyParseInt s

/-- Python `str(x)` on a selector. -/
def pyStrOfCol : Col → PyStr
  | Col.byIndex i => if i < 0 then '-' :: Nat.toDigits 10 i.natAbs else Nat.toDigits 10 i.natAbs
  | Col.byName s => s

/-- The `use_cols_list` construction of lines 99-114: start from
`[name_col]`; when a distinct filter column is configured, try integer
conversion of both selectors and use integer indices, falling back to
string names when either conversion fails; in both branches the filter
column is appended only when it differs from the name column. -/
def useColsList (nameCol : Col) (filterCol : Option Col) : List Col :=
  match filterCol with
  | none => [nameCol]
  | some fc =>
    if fc = nameCol then [nameCol]
    else
      match pyIntOfCol nameCol, pyIntOfCol fc with
      | some a, some b =>
        if b ≠ a then [Col.byIndex a, Col.byIndex b] else [Col.byIndex a]
      | some _, none =>
        if pyStrOfCol fc ≠ pyStrOfCol nameCol then
          [Col.byName (pyStrOfCol nameCol), Col.byName (pyStrOfCol fc)]
        else [Col.byName (pyStrOfCol nameCol)]
      | none, _ =>
        if pyStrOfCol fc ≠ pyStrOfCol nameCol then
          [Col.byName (pyStrOfCol nameCol), Col.byName (pyStrOfCol fc)]
        else [Col.byName (pyStrOfCol nameCol)]

/-- A sheet as the reader sees it after applying the header row: column
names and rows; a cell is `none` for NaN/empty, `some s` for the string
coercion of its value. -/
structure SheetData where
  header : List PyStr
  rows : List (List (Option PyStr))
  deriving DecidableEq, Repr

/-- Resolve one `usecols` selector against the header: a name must occur
(first occurrence wins); an integer index must be in range. -/
def resolveCol (header : List PyStr) : Col → Option Nat
  | Col.byIndex i => if 0 ≤ i ∧ i.toNat < header.length then some i.toNat else none
  | Col.byName s => header.findIdx? fun h => decide (h = s)

/-- Resolve all requested columns; `none` when any selector fails. -/
def resolveCols (header : List PyStr) : List Col → Option (List Nat)
  | [] => some []
  | c :: cs =>
    match resolveCol header c, resolveCols header cs with
    | some i, some is => some (i :: is)
    | _, _ => none

/-- The frame returned by the reader: a column count and positional rows. -/
structure DF where
  ncols : Nat
  rows : List (List (Option PyStr))
  deriving DecidableEq, Repr

/-- Modelled collaborator contract of `pd.read_excel(..., usecols=...)`:
every requested column must resolve (otherwise the read raises and the
task aborts), and the returned frame holds exactly the requested columns
in request order, padded with NaN where a row is short.  The script
indexes the frame positionally (`iloc[:, 0]` is the match column,
`iloc[:, 1]` the filter column, per its own comments at lines 162-163),
which this contract realises. -/
def readExcel (sheet : SheetData) (cols : List Col) : Option DF :=
  match resolveCols sheet.header cols with
  | none => none
  | some idxs =>
    some ⟨idxs.length, sheet.rows.map fun r => idxs.map fun i => r.getD i none⟩

/-- pandas `astype(str)` on a possibly-NaN cell: NaN prints as `nan`. -/
def cellStr : Option PyStr → PyStr
  | none => ['n', 'a', 'n']
  | some s => s

/-- Python `str(...)` of the optional `filter_value`: `str(None)` is the
four-character string `None`. -/
def pyStrOfOptVal : Option PyStr → PyStr
  | none => ['N', 'o', 'n', 'e']
  | some s => s

/-- Task-scope abort reasons of the script: unreadable dataset file,
reader `ValueError`, too few columns for filtering, no columns at all,
missing source directory. -/
inductive Abort where
  | excelMissing
  | readError
  | insufficientCols
  | noColumns
  | sourceMissing
  deriving DecidableEq, Repr

/-- The `names_list` construction of lines 150-190: with a filter column
configured, require at least two frame columns, keep rows whose second
cell (string-coerced, stripped) equals the stripped string coercion of
`filter_value`, and collect the non-NaN first cells; without a filter,
require at least one column and collect all non-NaN first cells. -/
def extractRaw (filterCol : Option Col) (filterValue : Option PyStr)
    (df : DF) : Except Abort (List PyStr) :=
  match filterCol with
  | some _ =>
    if df.ncols < 2 then Except.error Abort.insufficientCols
    else
      Except.ok
        ((df.rows.filter fun r =>
            decide (pyStrip (cellStr (r.getD 1 none)) =
              pyStrip (pyStrOfOptVal filterValue))).filterMap
          fun r => r.getD 0 none)
  | none =>
    if df.ncols < 1 then Except.error Abort.noColumns
    else Except.ok (df.rows.filterMap fun r => r.getD 0 none)

/-- One configured task, in the crash-free fragment of the script:
`excel` is `none` when the dataset file cannot be read at all; `source`
is `none` when the source directory does not exist, `some` when it exists
and its listing succeeds; `destNames` are the folder names already
present at the destination root, `destParentExists` whether that root
exists.  The uncaught `os.listdir` failure (source path exists but is not
a listable directory) cannot be expressed here; `MoveTaskF` below adds
that state. -/
structure MoveTask where
  excel : Option SheetData
  nameCol : Col
  filterCol : Option Col
  filterValue : Option PyStr
  source : Option (List Entry)
  destNames : List PyStr
  destParentExists : Bool
  env : ScanEnv

/-- Task stage after a successful frame read: build `names_list`, remove
legacy marks, then scan and move (or abort on extraction failure or a
missing source directory). -/
def runTaskWithDF (t : MoveTask) (df : DF) : Except Abort ScanState :=
  match extractRaw t.filterCol t.filterValue df with
  | Except.error a => Except.error a
  | Except.ok names0 =>
    match t.source with
    | none => Except.error Abort.sourceMissing
    | some entries =>
      Except.ok
        (scanTask t.env (processNames names0) entries t.destNames
          t.destParentExists)

/-- Task stage after the dataset file opened: read the frame over
`use_cols_list`, aborting on a reader error. -/
def runTaskWithSheet (t : MoveTask) (sheet : SheetData) : Except Abort ScanState :=
  match readExcel sheet (useColsList t.nameCol t.filterCol) with
  | none => Except.error Abort.readError
  | some df => runTaskWithDF t df

/-- One full task (lines 78-303) in the crash-free fragment: read the
frame over `use_cols_list`, build `names_list`, remove legacy marks, then
scan and move; every failure expressible in `MoveTask` is caught and
aborts only this task.  `runTaskF` below is the full-fidelity version
with the uncaught listing crash. -/
def runTask (t : MoveTask) : Except Abort ScanState :=
  match t.excel with
  | none => Except.error Abort.excelMissing
  | some sheet => runTaskWithSheet t sheet

/-- State of the configured source path as the scan begins: absent
(`os.path.exists` is false — caught at line 217, the task aborts),
present but not listable (`os.listdir` at line 223 raises
`NotADirectoryError` or `PermissionError` — the script has no handler for
this), or present with its listing. -/
inductive SourceDir where
  | absent
  | unlistable
  | listed (entries : List Entry)
  deriving DecidableEq, Repr

/-- A configured task with the full state of its source path, including
the unlistable case the script does not catch. -/
structure MoveTaskF where
  excel : Option SheetData
  nameCol : Col
  filterCol : Option Col
  filterValue : Option PyStr
  src : SourceDir
  destNames : List PyStr
  destParentExists : Bool
  env : ScanEnv

/-- Full-fidelity outcome of one task: `aborted` is a caught task-scope
failure (the loop continues), `done` a completed scan, and `crash` an
exception the script does not catch, which escapes the task loop and
terminates the whole run. -/
inductive TaskResult where
  | crash
  | aborted (a : Abort)
  | done (r : ScanState)
  deriving DecidableEq, Repr

/-- Full-fidelity stage after a successful frame read: as
`runTaskWithDF`, but an existing yet unlistable source raises out of the
task (line 223 is outside every `try`). -/
def runTaskFWithDF (t : MoveTaskF) (df : DF) : TaskResult :=
  match extractRaw t.filterCol t.filterValue df with
  | Except.error a => TaskResult.aborted a
  | Except.ok names0 =>
    match t.src with
    | SourceDir.absent => TaskResult.aborted Abort.sourceMissing
    | SourceDir.unlistable => TaskResult.crash
    | SourceDir.listed entries =>
      TaskResult.done
        (scanTask t.env (processNames names0) entries t.destNames
          t.destParentExists)

/-- Full-fidelity stage after the dataset file opened. -/
def runTaskFWithSheet (t : MoveTaskF) (sheet : SheetData) : TaskResult :=
  match readExcel sheet (useColsList t.nameCol t.filterCol) with
  | none => TaskResult.aborted Abort.readError
  | some df => runTaskFWithDF t df

/-- One full task with the uncaught listing failure represented. -/
def runTaskF (t : MoveTaskF) : TaskResult :=
  match t.excel with
  | none => TaskResult.aborted Abort.excelMissing
  | some sheet => runTaskFWithSheet t sheet

/-- The top-level loop over `move_tasks` with full fidelity: a caught
abort (`continue`) moves on to the next task, but an uncaught exception
propagates out of the `for` loop — the run ends at the crash and the
remaining tasks are never processed. -/
def runAllF : List MoveTaskF → List TaskResult
  | [] => []
  | t :: rest =>
    match runTaskF t with
    | TaskResult.crash => [TaskResult.crash]
    | o => o :: runAllF rest

/-- Moved counter of a task outcome; aborted and crashed tasks counted
nothing. -/
def resMoved : TaskResult → Nat
  | TaskResult.done r => r.moved
  | _ => 0

/-- Skipped counter of a task outcome; aborted and crashed tasks counted
nothing. -/
def resSkipped : TaskResult → Nat
  | TaskResult.done r => r.skipped
  | _ => 0

/-- Unmatched counter of a task outcome; aborted and crashed tasks
counted nothing. -/
def resUnmatched : TaskResult → Nat
  | TaskResult.done r => r.unmatched
  | _ => 0

/-- The crash-free fragment embeds into the full model. -/
def toFull (t : MoveTask) : MoveTaskF :=
  ⟨t.excel, t.nameCol, t.filterCol, t.filterValue,
    match t.source with
    | none => SourceDir.absent
    | some es => SourceDir.listed es,
    t.destNames, t.destParentExists, t.env⟩

theorem runAllF_append (pre l : List MoveTaskF)
    (hpre : ∀ p ∈ pre, runTaskF p ≠ TaskResult.crash) :
    runAllF (pre ++ l) = runAllF pre ++ runAllF l := by
  induction pre with
  | nil => rfl
  | cons p rest ih =>
    have hp := hpre p (by simp)
    have hrest : ∀ q ∈ rest, runTaskF q ≠ TaskResult.crash := fun q hq =>
      hpre q (by simp [hq])
    cases ho : runTaskF p with
    | crash => exact absurd ho hp
    | aborted a => simp [runAllF, ho, ih hrest]
    | done r => simp [runAllF, ho, ih hrest]

/-- A healthy one-row, one-entry task: sheet with column `ID`, value `42`,
source entry `42-john`. -/
def tOk : MoveTask :=
  ⟨some ⟨[['I', 'D']], [[some ['4', '2']]]⟩, Col.byIndex 0, none, none,
    some [⟨['4', '2', '-', 'j', 'o', 'h', 'n'], true⟩], [], true, envAll⟩

/-- C8: for every task that reaches the scanning phase (its result is a
final scan state), moved + skipped + unmatched equals the number of
directory entries among the top-level entries of its source directory;
non-directory entries count towards none of the three. -/
theorem C8_counter_complete (t : MoveTask) (entries : List Entry)
    (r : ScanState) (hsrc : t.source = some entries)
    (h : runTask t = Except.ok r) :
    r.moved + r.skipped + r.unmatched = entries.countP fun e => e.isDir := by
  cases hex : t.excel with
  | none =>
    simp only [runTask, hex] at h
    exact Except.noConfusion h
  | some sheet =>
    simp only [runTask, hex] at h
    cases hre : readExcel sheet (useColsList t.nameCol t.filterCol) with
    | none =>
      simp only [runTaskWithSheet, hre] at h
      exact Except.noConfusion h
    | some df =>
      simp only [runTaskWithSheet, hre] at h
      cases hq : extractRaw t.filterCol t.filterValue df with
      | error a =>
        simp only [runTaskWithDF, hq] at h
        exact Except.noConfusion h
      | ok names0 =>
        simp only [runTaskWithDF, hq, hsrc, Except.ok.injEq] at h
        rw [← h]
        have hc := scanFold_counts t.env (processNames names0) entries
          ⟨[], t.destNames, t.destParentExists, 0, 0, 0⟩
        simpa [scanTask] using hc

/-- The scan state produced by the healthy sample task: one move. -/
def rOk : ScanState := ⟨[], [['4', '2', '-', 'j', 'o', 'h', 'n']], true, 1, 0, 0⟩

/-- Witness for C8 on the healthy sample task. -/
theorem C8_counter_complete_witness :
    rOk.moved + rOk.skipped + rOk.unmatched =
      ([⟨['4', '2', '-', 'j', 'o', 'h', 'n'], true⟩] : List Entry).countP
        (fun e => e.isDir) :=
  C8_counter_complete tOk [⟨['4', '2', '-', 'j', 'o', 'h', 'n'], true⟩] rOk
    rfl rfl

theorem resolveCols_single (header : List PyStr) (c : Col) :
    resolveCols header [c] = (resolveCol header c).map fun i => [i] := by
  cases h : resolveCol header c <;> simp [resolveCols, h]

theorem readExcel_single_ncols (sheet : SheetData) (c : Col) (df : DF)
    (h : readExcel sheet [c] = some df) : df.ncols = 1 := by
  unfold readExcel at h
  rw [resolveCols_single] at h
  cases hrc : resolveCol sheet.header c with
  | none => rw [hrc] at h; exact Option.noConfusion h
  | some i =>
    rw [hrc] at h
    injection h with h
    rw [← h]
    rfl

/-- C9: configuring the filter column equal to the name column requests a
single column (`use_cols_list = [name_col]`), so on any successful read
the frame has exactly one column, the at-least-two-columns requirement of
the filtering branch fails, and the task always aborts with the
insufficient-columns error. -/
theorem C9_filter_eq_name (c : Col) (t : MoveTask) (sheet : SheetData)
    (df : DF) (hn : t.nameCol = c) (hf : t.filterCol = some c)
    (he : t.excel = some sheet) (hr : readExcel sheet [c] = some df) :
    useColsList c (some c) = [c] ∧ df.ncols = 1 ∧
    runTask t = Except.error Abort.insufficientCols := by
  have hu : useColsList c (some c) = [c] := by simp [useColsList]
  have hnc : df.ncols = 1 := readExcel_single_ncols sheet c df hr
  refine ⟨hu, hnc, ?_⟩
  simp only [runTask, he]
  have hcols : useColsList t.nameCol t.filterCol = [c] := by rw [hn, hf, hu]
  simp only [runTaskWithSheet, hcols, hr]
  simp [runTaskWithDF, extractRaw, hf, hnc]

/-- One-column sheet used by the C9 witness. -/
def sheet9 : SheetData := ⟨[['A']], []⟩

/-- Task with `filter_col` equal to `name_col` (both column index 0). -/
def t9 : MoveTask :=
  ⟨some sheet9, Col.byIndex 0, some (Col.byIndex 0), none, some [], [], true, envAll⟩

/-- The one-column frame read by the C9 witness task. -/
def df9 : DF := ⟨1, []⟩

/-- Witness for C9 at a concrete single-column task. -/
theorem C9_filter_eq_name_witness :
    useColsList (Col.byIndex 0) (some (Col.byIndex 0)) = [Col.byIndex 0] ∧
    df9.ncols = 1 ∧ runTask t9 = Except.error Abort.insufficientCols :=
  C9_filter_eq_name (Col.byIndex 0) t9 sheet9 df9 rfl rfl rfl rfl

/-- Two-column frame with one row `(x, y)` used by the C10 witness. -/
def dfTen : DF := ⟨2, [[some ['x'], some ['y']]]⟩

/-- C10: with a filter column configured but `filter_value` omitted, the
extraction still filters, comparing each row's filter cell against the
string `"None"` (Python's `str(None)`): only rows whose filter cell,
string-coerced and stripped, equals `None` contribute keys.  Omitting
`filter_value` is not the same as no filtering: on the frame with one row
`(x, y)` the filtered extraction yields no keys while the unfiltered one
yields `x`. -/
theorem C10_none_filter_value (fc : Col) (df : DF) (h2 : 2 ≤ df.ncols) :
    pyStrOfOptVal none = ['N', 'o', 'n', 'e'] ∧
    extractRaw (some fc) none df =
      Except.ok ((df.rows.filter fun r =>
          decide (pyStrip (cellStr (r.getD 1 none)) =
            ['N', 'o', 'n', 'e'])).filterMap
        fun r => r.getD 0 none) ∧
    extractRaw (some (Col.byIndex 0)) none dfTen = Except.ok [] ∧
    extractRaw none none dfTen = Except.ok [['x']] ∧
    extractRaw (some (Col.byIndex 0)) none dfTen ≠
      extractRaw none none dfTen := by
  have hlt : ¬ df.ncols < 2 := by omega
  refine ⟨rfl, ?_, rfl, rfl, ?_⟩
  · unfold extractRaw
    rw [if_neg hlt]
    rfl
  · intro h
    rw [show extractRaw (some (Col.byIndex 0)) none dfTen = Except.ok [] from rfl] at h
    rw [show extractRaw none none dfTen = Except.ok [['x']] from rfl] at h
    injection h with h
    exact List.noConfusion h

/-- Witness for C10 at the concrete two-column frame. -/
theorem C10_none_filter_value_witness :
    pyStrOfOptVal none = ['N', 'o', 'n', 'e'] ∧
    extractRaw (some (Col.byIndex 0)) none dfTen =
      Except.ok ((dfTen.rows.filter fun r =>
          decide (pyStrip (cellStr (r.getD 1 none)) =
            ['N', 'o', 'n', 'e'])).filterMap
        fun r => r.getD 0 none) ∧
    extractRaw (some (Col.byIndex 0)) none dfTen = Except.ok [] ∧
    extractRaw none none dfTen = Except.ok [['x']] ∧
    extractRaw (some (Col.byIndex 0)) none dfTen ≠
      extractRaw none none dfTen :=
  C10_none_filter_value (Col.byIndex 0) dfTen (by decide)

theorem runTaskF_toFull (t : MoveTask) :
    runTaskF (toFull t) =
      match runTask t with
      | Except.error a => TaskResult.aborted a
      | Except.ok r => TaskResult.done r := by
  cases hex : t.excel with
  | none => simp [runTaskF, toFull, runTask, hex]
  | some sheet =>
    simp only [runTaskF, toFull, runTask, hex]
    cases hre : readExcel sheet (useColsList t.nameCol t.filterCol) with
    | none => simp [runTaskFWithSheet, runTaskWithSheet, toFull, hre]
    | some df =>
      simp only [runTaskFWithSheet, runTaskWithSheet, toFull, hre]
      cases hq : extractRaw t.filterCol t.filterValue df with
      | error a => simp [runTaskFWithDF, runTaskWithDF, toFull, hq]
      | ok names0 =>
        simp only [runTaskFWithDF, runTaskWithDF, toFull, hq]
        cases hsrc : t.source with
        | none => simp [hsrc]
        | some es => simp [hsrc]

/-- One-column, one-row sheet shared by the concrete C6 tasks. -/
def sheetG : SheetData := ⟨[['I', 'D']], [[some ['4', '2']]]⟩

/-- A task whose source path exists but cannot be listed: the script's
`os.listdir` call raises and nothing catches it. -/
def tCrash : MoveTaskF :=
  ⟨some sheetG, Col.byIndex 0, none, none, SourceDir.unlistable, [], true, envAll⟩

/-- A healthy task in the full model: source entry `42-john` matched by
Excel value `42`. -/
def tGoodF : MoveTaskF :=
  ⟨some sheetG, Col.byIndex 0, none, none,
    SourceDir.listed [⟨['4', '2', '-', 'j', 'o', 'h', 'n'], true⟩], [], true, envAll⟩

/-- The completed scan state of `tGoodF`: one folder moved. -/
def rGood : ScanState := ⟨[], [['4', '2', '-', 'j', 'o', 'h', 'n']], true, 1, 0, 0⟩

/-- A task whose dataset file is missing, in the full model. -/
def tFailF : MoveTaskF :=
  ⟨none, Col.byIndex 0, none, none, SourceDir.absent, [], true, envAll⟩

/-- C6 counterexample: an existing but unlistable source path is a
per-task failure (`os.listdir` raises at line 223, outside every `try`)
that terminates the whole run: alone, the healthy task completes and
moves its folder, but placed after the crashing task it is never
processed — the run output stops at the crash.  This refutes "no
per-task failure (including any failure while scanning) terminates the
whole run". -/
theorem C6_counterexample :
    runTaskF tCrash = TaskResult.crash ∧
    runAllF [tGoodF] = [TaskResult.done rGood] ∧
    runAllF [tCrash, tGoodF] = [TaskResult.crash] := by
  exact ⟨rfl, rfl, rfl⟩

/-- C6 amended: failures the script catches are contained at task scope —
a task whose dataset cannot be read or whose source directory does not
exist aborts with all three of its counters at zero, and, provided no
earlier task crashed, the run continues to the surrounding tasks
unchanged.  Containment is not complete, however: a task on which the
source listing itself raises (source path exists but is not a listable
directory) is an uncaught per-task failure that terminates the whole
run, and the tasks after it are never processed. -/
theorem C6_amended (t : MoveTaskF) (pre post : List MoveTaskF)
    (hpre : ∀ p ∈ pre, runTaskF p ≠ TaskResult.crash)
    (h : t.excel = none ∨ t.src = SourceDir.absent) :
    (∃ a, runTaskF t = TaskResult.aborted a) ∧
    resMoved (runTaskF t) = 0 ∧ resSkipped (runTaskF t) = 0 ∧
    resUnmatched (runTaskF t) = 0 ∧
    runAllF (pre ++ t :: post) = runAllF pre ++ runTaskF t :: runAllF post ∧
    (∀ (u : MoveTaskF) (rest : List MoveTaskF),
      runTaskF u = TaskResult.crash → runAllF (u :: rest) = [TaskResult.crash]) := by
  have herr : ∃ a, runTaskF t = TaskResult.aborted a := by
    rcases h with h | h
    · exact ⟨Abort.excelMissing, by simp [runTaskF, h]⟩
    · cases hex : t.excel with
      | none => exact ⟨Abort.excelMissing, by simp [runTaskF, hex]⟩
      | some sheet =>
        cases hre : readExcel sheet (useColsList t.nameCol t.filterCol) with
        | none =>
          exact ⟨Abort.readError, by simp [runTaskF, runTaskFWithSheet, hex, hre]⟩
        | some df =>
          cases hq : extractRaw t.filterCol t.filterValue df with
          | error a =>
            exact ⟨a, by
              simp [runTaskF, runTaskFWithSheet, runTaskFWithDF, hex, hre, hq]⟩
          | ok names0 =>
            exact ⟨Abort.sourceMissing, by
              simp [runTaskF, runTaskFWithSheet, runTaskFWithDF, hex, hre, hq, h]⟩
  obtain ⟨a, ha⟩ := herr
  refine ⟨⟨a, ha⟩, by rw [ha]; rfl, by rw [ha]; rfl, by rw [ha]; rfl, ?_, ?_⟩
  · rw [runAllF_append pre (t :: post) hpre]
    congr 1
    simp [runAllF, ha]
  · intro u rest hu
    simp [runAllF, hu]

/-- Witness for C6 amended: a missing-dataset task between two healthy
tasks aborts with zero counters and the run continues around it; the
crash clause is part of the instantiated conclusion. -/
theorem C6_amended_witness :
    (∃ a, runTaskF tFailF = TaskResult.aborted a) ∧
    resMoved (runTaskF tFailF) = 0 ∧ resSkipped (runTaskF tFailF) = 0 ∧
    resUnmatched (runTaskF tFailF) = 0 ∧
    runAllF ([tGoodF] ++ tFailF :: [tGoodF]) =
      runAllF [tGoodF] ++ runTaskF tFailF :: runAllF [tGoodF] ∧
    (∀ (u : MoveTaskF) (rest : List MoveTaskF),
      runTaskF u = TaskResult.crash → runAllF (u :: rest) = [TaskResult.crash]) :=
  C6_amended tFailF [tGoodF] [tGoodF] (by decide) (Or.inl rfl)
